import Mathlib

/-!
Verification development for the TrashWheel auto-annotation pipeline.

The repository consists of four orchestration scripts plus a shared
annotation-platform (CVAT) client.  This file shallowly embeds the pure
decision logic of those scripts over explicit state types:

* a cloud-storage bucket is a list of object names;
* local directories are association lists from file name to content;
* HTTP interactions are parameters (status codes, poll streams) and
  Python exceptions are `Except` values.

Each embedded definition is translated from the corresponding Python
source function and keeps its name where Lean allows it.
-/

/-! ## Cloud storage model

A bucket is a set of objects, each identified by its full name.  GCS has no
real directories: listing with a prefix returns every object whose name
starts with the prefix, and a delimiter listing splits results into items
(no further slash after the prefix) and common prefixes.
-/

structure Bucket where
  objects : List String
deriving Repr

/-- Character-list prefix test (the embedding of `str.startswith` /
blob-name prefix filtering), kept structural so the kernel can evaluate it. -/
def strStartsWith (s pre : String) : Bool :=
  pre.toList.isPrefixOf s.toList

/-- The remainder of an object name after a listing prefix. -/
def strDropLen (s pre : String) : List Char :=
  s.toList.drop pre.toList.length

/-- `storage_client.list_blobs(bucket, prefix=pre)`: all objects whose name
starts with `pre`, in bucket order. -/
def list_blobs (b : Bucket) (pre : String) : List String :=
  b.objects.filter (fun n => strStartsWith n pre)

/-- `list_blobs(..., max_results=k)`: the listing truncated to `k` results. -/
def list_blobs_max (b : Bucket) (pre : String) (maxResults : Nat) : List String :=
  (list_blobs b pre).take maxResults

/-! ## String helpers shared by the embedded scripts -/

/-- Lowercase a string character by character (`str.lower()`). -/
def strToLower (s : String) : String :=
  String.mk (s.toList.map Char.toLower)

/-- `str.split(sep)` on a single-character separator. -/
def splitOnChar (sep : Char) : List Char → List (List Char)
  | [] => [[]]
  | c :: rest =>
    let r := splitOnChar sep rest
    if c = sep then [] :: r
    else
      match r with
      | [] => [[c]]
      | g :: gs => (c :: g) :: gs

/-- Index of the first character satisfying `p`, if any. -/
def findIdxOpt (p : Char → Bool) : List Char → Option Nat
  | [] => none
  | c :: rest => if p c then some 0 else (findIdxOpt p rest).map (fun i => i + 1)

/-- `pathlib.Path(name).stem` and `.suffix`: split at the last dot, provided
it is neither the leading nor the trailing character of the name. -/
def py_split_ext (name : String) : String × String :=
  let cs := name.toList
  match findIdxOpt (fun c => c = '.') cs.reverse with
  | none => (name, "")
  | some j =>
    let i := cs.length - 1 - j
    if 0 < i ∧ j ≠ 0 then (String.mk (cs.take i), String.mk (cs.drop i))
    else (name, "")

def py_stem (name : String) : String := (py_split_ext name).1

def py_suffix (name : String) : String := (py_split_ext name).2

/-! ## Scan-and-dispatch function

Two near-duplicate source files implement the dispatch Cloud Function.
`AutoAnnotationNested` embeds
`cloud-run-functions/baltimore-auto-annotation/baltimore_auto_annotation.py`
(a single non-emptiness re-check of the auto-annotations listing);
`AutoAnnotationTop` embeds `cloud-run-functions/baltimore_auto_annotation.py`
(which additionally re-checks a prefix-only listing).  The VM-provisioning
side effect is outside both embeddings; `main` returns the
`valid_folders_for_inference` list that the function would inject as the
`folders` instance-metadata key.
-/

namespace AutoAnnotationNested

/-- Valid ultralytics/yolov11 image formats (dispatch-function copy). -/
def IMG_FORMATS : List String :=
  ["bmp", "dng", "jpeg", "jpg", "mpo", "png", "tif", "tiff", "webp", "pfm", "heic"]

/-- `blob.name.lower().split(".")[-1]`. -/
def blob_extension (name : String) : String :=
  String.mk ((splitOnChar '.' (strToLower name).toList).getLastD [])

/-- The per-folder body of the dispatch loop: images listing must be
non-empty, every listed object must have a supported extension, and the
1-element auto-annotations listing must be empty. -/
def folder_check (b : Bucket) (date_wheel_path : String) : Bool :=
  let images_folder_path := date_wheel_path ++ "images/"
  let images_blobs := list_blobs b images_folder_path
  let at_least_one_file := !images_blobs.isEmpty
  let valid_images := images_blobs.all (fun n => IMG_FORMATS.contains (blob_extension n))
  if !at_least_one_file then false
  else if !valid_images then false
  else
    let auto_annotations_folder_path := date_wheel_path ++ "auto-annotations/"
    let auto_annotations_blobs := list_blobs_max b auto_annotations_folder_path 1
    if !auto_annotations_blobs.isEmpty then false
    else true

/-- The dispatch loop over configured trash wheels for yesterday: collects
the eligible folder paths in order. -/
def main (b : Bucket) (trash_wheels : List String) (yesterday : String) : List String :=
  trash_wheels.foldl
    (fun valid_folders_for_inference wheel =>
      let date_wheel_path := wheel ++ "/" ++ yesterday ++ "/"
      if folder_check b date_wheel_path then
        valid_folders_for_inference ++ [date_wheel_path]
      else valid_folders_for_inference)
    []

end AutoAnnotationNested

namespace AutoAnnotationTop

/-- Per-folder body of the top-level dispatch variant: same images checks,
then the `max_results=1` non-emptiness check, then an additional
`max_results=2` check that some listed object differs from the folder
placeholder name itself. -/
def folder_check (b : Bucket) (date_wheel_path : String) : Bool :=
  let images_folder_path := date_wheel_path ++ "images/"
  let images_blobs := list_blobs b images_folder_path
  let at_least_one_file := !images_blobs.isEmpty
  let valid_images :=
    images_blobs.all (fun n => AutoAnnotationNested.IMG_FORMATS.contains (AutoAnnotationNested.blob_extension n))
  if !at_least_one_file then false
  else if !valid_images then false
  else
    let auto_annotations_folder_path := date_wheel_path ++ "auto-annotations/"
    let auto_annotations_blobs := list_blobs_max b auto_annotations_folder_path 1
    if !auto_annotations_blobs.isEmpty then false
    else
      let auto_annotations_blobs2 := list_blobs_max b auto_annotations_folder_path 2
      if auto_annotations_blobs2.any (fun blobName => blobName ≠ auto_annotations_folder_path) then false
      else true

/-- The dispatch loop of the top-level variant. -/
def main (b : Bucket) (trash_wheels : List String) (yesterday : String) : List String :=
  trash_wheels.foldl
    (fun valid_folders_for_inference wheel =>
      let date_wheel_path := wheel ++ "/" ++ yesterday ++ "/"
      if folder_check b date_wheel_path then
        valid_folders_for_inference ++ [date_wheel_path]
      else valid_folders_for_inference)
    []

end AutoAnnotationTop

/-! ## Python dict / overwriting-file-move model

Both the manifest updates and `shutil.move` onto an existing destination
follow the same semantics: replace the entry in place when the key is
present, append otherwise (insertion order preserved).
-/

/-- Python dict assignment `d[k] = v` (also the overwrite semantics of
moving a file onto an existing path in a directory listing). -/
def dict_set {α : Type} (l : List (String × α)) (k : String) (v : α) :
    List (String × α) :=
  if l.any (fun p => decide (p.1 = k)) then
    l.map (fun p => if p.1 = k then (k, v) else p)
  else l ++ [(k, v)]

/-- Python dict lookup `d.get(k)`. -/
def dict_get {α : Type} (l : List (String × α)) (k : String) : Option α :=
  (l.find? (fun p => decide (p.1 = k))).map (fun p => p.2)

/-! ## Inference runner (`virtual-machine/inference.py`)

The runner downloads images in batches, calls the detector, and ensures a
label file per image.  The detector itself (`model.predict`) is external; it
is modelled by the list of label files it leaves in
`runs/detect/predict/labels` — the `predicted` parameter below.  A local
directory is an association list from file name to file content.
-/

namespace Inference

/-- Allowed image extensions for ultralytics YOLOv11 (VM copy, with dots). -/
def IMG_FORMATS : List String :=
  [".bmp", ".dng", ".jpeg", ".jpg", ".mpo", ".png", ".tif", ".tiff", ".webp", ".pfm", ".heic"]

/-- The move loop of `process_batch`: every `.txt` file produced by the
detector is moved from the prediction directory into `output_dir`
(overwriting an existing destination, as `shutil.move` does). -/
def move_predicted_labels (predicted : List (String × String))
    (output_dir : List (String × String)) : List (String × String) :=
  predicted.foldl
    (fun out file =>
      if py_suffix file.1 = ".txt" then dict_set out file.1 file.2 else out)
    output_dir

/-- The body of the second loop of `process_batch`: for an image file with
a supported extension (lowercased), create an empty `stem.txt` label file
unless one already exists. -/
def touch_missing_label (out : List (String × String)) (image_file : String) :
    List (String × String) :=
  if IMG_FORMATS.contains (strToLower (py_suffix image_file)) then
    let label_file_name := py_stem image_file ++ ".txt"
    if (out.find? (fun p => decide (p.1 = label_file_name))).isSome then out
    else out ++ [(label_file_name, "")]
  else out

/-- `process_batch(model, input_dir, output_dir)`: move the detector label
files into `output_dir`, then create an empty `stem.txt` for every image in
`input_dir` (supported extension, lowercased) whose label file does not
exist yet. -/
def process_batch (predicted : List (String × String)) (input_dir : List String)
    (output_dir : List (String × String)) : List (String × String) :=
  let moved := move_predicted_labels predicted output_dir
  input_dir.foldl touch_missing_label moved

/-- Value of a decimal digit run, as produced by Python `int(...)`. -/
def digits_to_nat (ds : List Char) : Nat :=
  ds.foldl (fun acc c => acc * 10 + (c.toNat - 48)) 0

/-- The embedding of `re.search(r"model_v(\d+)/", blob_name)`: scan left to
right for the literal `model_v`, followed by a non-empty digit run,
followed by a slash; return the numeric value of the digit run. -/
def match_model_v : List Char → Option Nat
  | [] => none
  | c :: rest =>
    let s := c :: rest
    let pat := ['m', 'o', 'd', 'e', 'l', '_', 'v']
    if s.take 7 = pat then
      let tail := s.drop 7
      let ds := tail.takeWhile Char.isDigit
      if ds ≠ [] ∧ (tail.drop ds.length).head? = some '/' then
        some (digits_to_nat ds)
      else match_model_v rest
    else match_model_v rest

/-- `re.search` applied to a blob name. -/
def re_search_model_v (name : String) : Option Nat :=
  match_model_v name.toList

/-- The numeric versions matched among the blobs under the production
folder (one entry per matching blob, as in the source loop). -/
def model_version_nums (b : Bucket) (production_folder : String) : List Nat :=
  (list_blobs b production_folder).filterMap re_search_model_v

/-- `get_latest_model_version`: collect `(version, prefix)` pairs for every
blob matching `model_v{N}/`, raise if none, otherwise return the prefix of
the pair with the numerically largest version (`max` with `key=x[0]`,
keeping the earliest pair on ties). -/
def get_latest_model_version (b : Bucket) (production_folder : String) :
    Except String String :=
  let model_versions :=
    (list_blobs b production_folder).filterMap (fun blobName =>
      match re_search_model_v blobName with
      | some version =>
        some (version, production_folder ++ "model_v" ++ toString version ++ "/")
      | none => none)
  match model_versions with
  | [] => .error "No model versions found in the production folder."
  | first :: rest =>
    let latest := rest.foldl (fun acc x => if acc.1 < x.1 then x else acc) first
    .ok latest.2

end Inference

/-! ## Annotation-platform client (`CVAT/cvat_client.py`)

HTTP interactions are parameters: the initial export response is a status
code plus an optional request id, and the status polls are a stream of
status codes indexed by attempt number.  A Python `raise` inside the
client is an `Except.error`; `export_annotations` wraps its whole body in
`try/except` and converts any such error into a plain `False` return.
-/

namespace CVAT

/-- The response of the initial format-qualified GET on
`/tasks/{id}/annotations`: an HTTP status code and the optional `rq_id`
field of the JSON body. -/
structure ExportResponse where
  status_code : Nat
  rq_id : Option String
deriving Repr, DecidableEq

/-- The `for attempt in range(60)` polling loop of `export_annotations`.
`polls n` is the HTTP status of the status poll at attempt index `n`;
`remaining` is the number of attempts left.  `ok attempt` records a
successful return observed at that attempt (status 200 or 201); any status
other than 202 raises, and exhausting the 60 attempts raises
`Export timed out`. -/
def export_poll_go (polls : Nat → Nat) : Nat → Nat → Except String Nat
  | _, 0 => .error "Export timed out"
  | attempt, remaining + 1 =>
    let s := polls attempt
    if s = 200 ∨ s = 201 then .ok attempt
    else if s ≠ 202 then .error ("Export failed: " ++ toString s)
    else export_poll_go polls (attempt + 1) remaining

/-- The body of `export_annotations` up to (but not including) its
enclosing `try/except`: a 202 initial response enters the polling loop
(after checking that a request id is present and non-falsy); a 200/201
initial response succeeds immediately; anything else raises. -/
def export_annotations_inner (resp : ExportResponse) (polls : Nat → Nat) :
    Except String Bool :=
  if resp.status_code = 202 then
    match resp.rq_id with
    | none => .error "No request ID received"
    | some rq_id =>
      if rq_id = "" then .error "No request ID received"
      else
        match export_poll_go polls 0 60 with
        | .ok _ => .ok true
        | .error e => .error e
  else if resp.status_code = 200 ∨ resp.status_code = 201 then .ok true
  else .error ("Export failed: " ++ toString resp.status_code)

/-- `export_annotations` as its callers see it: the enclosing
`try/except Exception` catches every raise from the body and returns
`False`, so the function always returns a plain boolean. -/
def export_annotations (resp : ExportResponse) (polls : Nat → Nat) : Bool :=
  match export_annotations_inner resp polls with
  | .ok b => b
  | .error _ => false

/-- A CVAT task as used by the cache lookups: the fields the client reads. -/
structure CVATTask where
  id : Nat
  name : String
  status : String
deriving Repr, DecidableEq

/-- The Python errors distinguishable in the embedded client: an undefined
name at evaluation time, a type error (iterating `None`), and an ordinary
`Exception(msg)`. -/
inductive PyError where
  | nameError (var : String)
  | typeError (msg : String)
  | exception (msg : String)
deriving Repr, DecidableEq

/-- `next((t for t in xs if p t), None)` where `xs` may be `None`: iterating
`None` raises a `TypeError` the moment the generator is advanced. -/
def py_next_find (xs : Option (List CVATTask)) (p : CVATTask → Bool) :
    Except PyError (Option CVATTask) :=
  match xs with
  | none => .error (.typeError "NoneType object is not iterable")
  | some l => .ok (l.find? p)

/-- The local names bound in `get_task` at its raise statement, with the
string each would interpolate to: `self`, the `name` argument, and the
`task` variable (which is `None` on that branch). -/
def get_task_locals (name : String) : List (String × String) :=
  [("self", "CVATClient object"), ("name", name), ("task", "None")]

/-- The module-level names of `cvat_client.py` (its imports and the class
itself), the fallback scope for name resolution inside the method. -/
def cvat_module_globals : List (String × String) :=
  [("requests", "module requests"), ("Path", "class Path"),
   ("shutil", "module shutil"), ("time", "module time"),
   ("zipfile", "module zipfile"), ("os", "module os"),
   ("storage", "module storage"), ("Union", "typing.Union"),
   ("CVATClient", "class CVATClient")]

/-- Evaluation of a name inside an f-string: resolve through locals then
module globals; an unbound name raises `NameError`. -/
def fstring_resolve (localScope : List (String × String)) (var : String) :
    Except PyError String :=
  match (localScope ++ cvat_module_globals).find? (fun p => decide (p.1 = var)) with
  | some p => .ok p.2
  | none => .error (.nameError var)

/-- `get_task(name)`: search the (possibly never populated) `_tasks` cache;
on a miss, raise `Exception(f"Task ... not found")` — whose f-string first
evaluates the name `task_name`, which is not bound in any enclosing
scope. -/
def get_task (tasks_cache : Option (List CVATTask)) (name : String) :
    Except PyError CVATTask := do
  let task ← py_next_find tasks_cache (fun t => decide (t.name = name))
  match task with
  | some t => pure t
  | none =>
    match fstring_resolve (get_task_locals name) "task_name" with
    | .ok v => .error (.exception ("Task " ++ v ++ " not found"))
    | .error e => .error e

/-- `get_completed_task(name)`: search the `_completed_tasks` cache; on a
miss, fall back to `get_task` (propagating whatever it raises) and, if that
somehow returned, report the task as not completed. -/
def get_completed_task (completed_cache tasks_cache : Option (List CVATTask))
    (name : String) : Except PyError CVATTask := do
  let completed_task ← py_next_find completed_cache (fun t => decide (t.name = name))
  match completed_task with
  | some t => pure t
  | none =>
    match get_task tasks_cache name with
    | .error e => .error e
    | .ok _ => .error (.exception ("Task " ++ name ++ " is not completed"))

end CVAT

/-! ## Export-and-download function
(`cloud-run-functions/baltimore-cvat-download/main.py`)
-/

namespace CvatDownload

/-- One manifest record: processing status and timestamp for a
(device, date) folder. -/
structure ManifestEntry where
  status : String
  processed_at : String
deriving Repr, DecidableEq

/-- The inner JSON object: date → entry. -/
abbrev InnerManifest := List (String × ManifestEntry)

/-- The manifest JSON object: device id → (date → entry).  Python dicts
have unique keys; the embedding represents them as association lists and
`dict_set` below implements key-unique assignment. -/
abbrev Manifest := List (String × InnerManifest)

/-- `update_processed_manifest(bucket, device_id, date, status)`: read the
manifest, ensure `manifest[device_id]` exists, then assign
`manifest[device_id][date] = (status, now)` and write it back.  The
read-modify-write is collapsed to the pure map update; `now` is the
timestamp the write records. -/
def update_processed_manifest (manifest : Manifest)
    (device_id date status now : String) : Manifest :=
  (if manifest.any (fun p => decide (p.1 = device_id)) then manifest
   else manifest ++ [(device_id, [])]).map
    (fun p =>
      if p.1 = device_id then (p.1, dict_set p.2 date ⟨status, now⟩) else p)

/-- Manifest lookup of the entry recorded for (device, date). -/
def manifest_lookup (manifest : Manifest) (device_id date : String) :
    Option ManifestEntry :=
  (dict_get manifest device_id).bind (fun inner => dict_get inner date)

/-- How many records the manifest holds for (device, date) — exactly one in
any well-formed dict state. -/
def manifest_entry_count (manifest : Manifest) (device_id date : String) : Nat :=
  ((manifest.filter (fun p => decide (p.1 = device_id))).flatMap
    (fun p => p.2.filter (fun q => decide (q.1 = date)))).length

/-- The delimiter listing items: objects under the prefix with no further
slash (this includes a `pre`-named placeholder object itself). -/
def list_items_delim (b : Bucket) (pre : String) : List String :=
  b.objects.filter (fun n => strStartsWith n pre && !(strDropLen n pre).contains '/')

/-- The common prefixes of a delimiter listing: for every object under the
prefix whose remainder has a further slash, the prefix extended up to and
including that first slash, deduplicated. -/
def common_prefixes (b : Bucket) (pre : String) : List String :=
  ((b.objects.filter (fun n => strStartsWith n pre && (strDropLen n pre).contains '/')).map
    (fun n => pre ++ String.mk ((strDropLen n pre).takeWhile (fun c => c ≠ '/')) ++ "/")).dedup

/-- `folder_exists(bucket, prefix)`: a 1-element delimiter listing of items
plus the full list of common prefixes; the folder exists when either is
non-empty. -/
def folder_exists (b : Bucket) (pre : String) : Bool :=
  let blobs := (list_items_delim b pre).take 1
  let prefixes := common_prefixes b pre
  decide (blobs.length > 0) || decide (prefixes.length > 0)

/-- The dispatch check `processed_folders[device_id][date]["status"] ==
"completed"` guarded by the two membership tests. -/
def manifest_completed (processed_folders : Manifest) (device_id date : String) :
    Bool :=
  match dict_get processed_folders device_id with
  | some inner =>
    match dict_get inner date with
    | some e => decide (e.status = "completed")
    | none => false
  | none => false

/-- The date subfolders of a device: second path component of each common
prefix of the `{device}/` delimiter listing (a Python set — deduplicated,
order immaterial to the claims). -/
def date_folders (b : Bucket) (device_id : String) : List String :=
  ((common_prefixes b (device_id ++ "/")).map
    (fun p => (splitOnChar '/' p.toList).getD 1 [] |> String.mk)).dedup

/-- The candidate-selection logic of `cvat_download`: for each device and
each of its date folders, skip dates already completed in the manifest,
then select the date exactly when `auto-annotations/` exists and
`annotations/` does not. -/
def cvat_download_candidates (b : Bucket) (processed_folders : Manifest) :
    List (String × String) :=
  ["1", "2", "3"].flatMap (fun device_id =>
    (date_folders b device_id).filterMap (fun date =>
      if manifest_completed processed_folders device_id date then none
      else
        let auto_annotations_path := device_id ++ "/" ++ date ++ "/auto-annotations/"
        let annotations_path := device_id ++ "/" ++ date ++ "/annotations/"
        let auto_annotations_exists := folder_exists b auto_annotations_path
        let annotations_exists := folder_exists b annotations_path
        if auto_annotations_exists && !annotations_exists then some (device_id, date)
        else none))

/-- The `while time.time() - start_time < max_wait` loop waiting for the
delivered archive: one existence poll every 10 seconds for 300 seconds
(30 polls).  `zip_exists n` is the result of the existence check at poll
`n` (it may itself raise); `zip_process` is the outcome of
`process_zip_file`, whose raise is caught in place and recorded as
`failed_zip_processing`.  The `while/else` timeout branch records
`timeout_waiting_for_zip`. -/
def wait_for_zip (zip_exists : Nat → Except String Bool)
    (zip_process : Except String Unit) : Nat → Nat → Except String String
  | _, 0 => .ok "timeout_waiting_for_zip"
  | poll, remaining + 1 => do
    let ex ← zip_exists poll
    if ex then
      match zip_process with
      | .ok _ => pure "completed"
      | .error _ => pure "failed_zip_processing"
    else wait_for_zip zip_exists zip_process (poll + 1) remaining

/-- The per-folder body of `cvat_download`, reduced to the manifest status
it records: a rejected export records `export_failed`; otherwise the
archive wait loop runs, and any exception escaping to the per-folder
`except` records `error`. -/
def process_folder (export_success : Bool) (zip_exists : Nat → Except String Bool)
    (zip_process : Except String Unit) : String :=
  if export_success then
    match wait_for_zip zip_exists zip_process 0 30 with
    | .ok s => s
    | .error _ => "error"
  else "export_failed"

/-- The observable behaviour of one candidate folder during an invocation. -/
structure FolderRun where
  export_success : Bool
  zip_exists : Nat → Except String Bool
  zip_process : Except String Unit

/-- The folder loop of `cvat_download`: every candidate folder is processed
to a recorded status; no failure aborts the loop. -/
def cvat_download_statuses (folders : List FolderRun) : List String :=
  folders.map (fun f => process_folder f.export_success f.zip_exists f.zip_process)

end CvatDownload

/-! ## Helper lemmas -/

theorem take_one_isEmpty {α : Type} (l : List α) : (l.take 1).isEmpty = l.isEmpty := by
  cases l <;> rfl

theorem folder_check_nested_eq (b : Bucket) (p : String) :
    AutoAnnotationNested.folder_check b p =
      (!(list_blobs b (p ++ "images/")).isEmpty &&
       (list_blobs b (p ++ "images/")).all
         (fun n => AutoAnnotationNested.IMG_FORMATS.contains (AutoAnnotationNested.blob_extension n)) &&
       (list_blobs b (p ++ "auto-annotations/")).isEmpty) := by
  unfold AutoAnnotationNested.folder_check
  simp only [list_blobs_max, take_one_isEmpty]
  cases h1 : (list_blobs b (p ++ "images/")).isEmpty <;>
    cases h2 : (list_blobs b (p ++ "images/")).all
      (fun n => AutoAnnotationNested.IMG_FORMATS.contains (AutoAnnotationNested.blob_extension n)) <;>
    cases h3 : (list_blobs b (p ++ "auto-annotations/")).isEmpty <;>
    simp [h1, h2, h3]

/-! ## Claim theorems -/

/-- Claim C1: the scan-and-dispatch function marks a (device, yesterday)
folder eligible if and only if the `images/` listing is non-empty, every
listed object has a supported extension (lowercased, after the last dot),
and the `auto-annotations/` listing under the folder is empty; a folder
with any unsupported extension is never eligible; and the bucket holding
`3/2025-1-4/images/a.jpg` and `3/2025-1-4/images/b.jpg` with no
auto-annotations yields the folder list `["3/2025-1-4/"]`. -/
theorem C1_dispatch_eligibility :
    (∀ (b : Bucket) (p : String),
      AutoAnnotationNested.folder_check b p = true ↔
        (list_blobs b (p ++ "images/") ≠ [] ∧
         (∀ n ∈ list_blobs b (p ++ "images/"),
            AutoAnnotationNested.IMG_FORMATS.contains (AutoAnnotationNested.blob_extension n) = true) ∧
         list_blobs b (p ++ "auto-annotations/") = [])) ∧
    (∀ (b : Bucket) (p n : String), n ∈ list_blobs b (p ++ "images/") →
      AutoAnnotationNested.IMG_FORMATS.contains (AutoAnnotationNested.blob_extension n) = false →
      AutoAnnotationNested.folder_check b p = false) ∧
    AutoAnnotationNested.main ⟨["3/2025-1-4/images/a.jpg", "3/2025-1-4/images/b.jpg"]⟩
      ["1", "2", "3", "4", "5"] "2025-1-4" = ["3/2025-1-4/"] := by
  refine ⟨?_, ?_, ?_⟩
  · intro b p
    rw [folder_check_nested_eq]
    simp only [Bool.and_eq_true, Bool.not_eq_true', List.isEmpty_iff, List.isEmpty_eq_false,
      ne_eq, List.all_eq_true]
    constructor
    · rintro ⟨⟨h1, h2⟩, h3⟩
      exact ⟨h1, h2, h3⟩
    · rintro ⟨h1, h2, h3⟩
      exact ⟨⟨h1, h2⟩, h3⟩
  · intro b p n hmem hbad
    rw [folder_check_nested_eq]
    simp only [Bool.and_eq_false_iff]
    left
    right
    rw [List.all_eq_false]
    refine ⟨n, hmem, ?_⟩
    simpa using hbad
  · decide

/-- Witness for C1 at the concrete scenario bucket: the scenario folder
satisfies the right-hand side of the eligibility equivalence, and the
equivalence (applied via the theorem) makes it eligible. -/
theorem C1_dispatch_eligibility_witness :
    AutoAnnotationNested.folder_check
      ⟨["3/2025-1-4/images/a.jpg", "3/2025-1-4/images/b.jpg"]⟩ "3/2025-1-4/" = true :=
  (C1_dispatch_eligibility.1 _ _).mpr ⟨by decide, by decide, by decide⟩

theorem folder_check_top_eq_nested (b : Bucket) (p : String) :
    AutoAnnotationTop.folder_check b p = AutoAnnotationNested.folder_check b p := by
  unfold AutoAnnotationTop.folder_check AutoAnnotationNested.folder_check
  simp only [list_blobs_max]
  by_cases h3 : list_blobs b (p ++ "auto-annotations/") = []
  · simp [h3]
  · have h3' : ((list_blobs b (p ++ "auto-annotations/")).take 1).isEmpty = false := by
      rw [take_one_isEmpty]
      cases hl : list_blobs b (p ++ "auto-annotations/") with
      | nil => exact absurd hl h3
      | cons a l => rfl
    simp [h3']

/-- Claim C9, counterexample: on the bucket state singled out by the claim —
`auto-annotations/` listing containing only the prefix placeholder object
itself — the two dispatch variants do NOT compute different eligible-folder
lists: both skip the folder and return the empty list. -/
theorem C9_counterexample_placeholder_only_state :
    AutoAnnotationTop.main
        ⟨["3/2025-1-4/images/a.jpg", "3/2025-1-4/auto-annotations/"]⟩ ["3"] "2025-1-4"
      = AutoAnnotationNested.main
        ⟨["3/2025-1-4/images/a.jpg", "3/2025-1-4/auto-annotations/"]⟩ ["3"] "2025-1-4" ∧
    AutoAnnotationNested.main
        ⟨["3/2025-1-4/images/a.jpg", "3/2025-1-4/auto-annotations/"]⟩ ["3"] "2025-1-4"
      = [] := by
  constructor
  · decide
  · decide

/-- Claim C9 (amended): the two near-duplicate dispatch variants compute
the same eligible-folder list on every bucket state — the additional
prefix-only re-check of the top-level variant is reached only after the
`max_results=1` listing was found empty, in which case the `max_results=2`
listing of the same prefix is empty too, so the extra check never changes
the outcome. -/
theorem C9_dispatch_variants_equivalent :
    ∀ (b : Bucket) (trash_wheels : List String) (yesterday : String),
      AutoAnnotationTop.main b trash_wheels yesterday =
        AutoAnnotationNested.main b trash_wheels yesterday := by
  intro b trash_wheels yesterday
  unfold AutoAnnotationTop.main AutoAnnotationNested.main
  simp only [folder_check_top_eq_nested]

theorem foldl_max_pair_mem {β : Type} :
    ∀ (l : List (Nat × β)) (a : Nat × β),
      l.foldl (fun acc x => if acc.1 < x.1 then x else acc) a ∈ a :: l := by
  intro l
  induction l with
  | nil => intro a; simp
  | cons x xs ih =>
    intro a
    simp only [List.foldl_cons]
    by_cases hc : a.1 < x.1
    · rw [if_pos hc]
      rcases List.mem_cons.mp (ih x) with h1 | h1
      · rw [h1]
        exact List.mem_cons_of_mem _ (List.mem_cons_self _ _)
      · exact List.mem_cons_of_mem _ (List.mem_cons_of_mem _ h1)
    · rw [if_neg hc]
      rcases List.mem_cons.mp (ih a) with h1 | h1
      · rw [h1]
        exact List.mem_cons_self _ _
      · exact List.mem_cons_of_mem _ (List.mem_cons_of_mem _ h1)

theorem foldl_max_pair_le {β : Type} :
    ∀ (l : List (Nat × β)) (a : Nat × β) (y : Nat × β),
      y ∈ a :: l →
        y.1 ≤ (l.foldl (fun acc x => if acc.1 < x.1 then x else acc) a).1 := by
  intro l
  induction l with
  | nil =>
    intro a y hy
    rcases List.mem_cons.mp hy with h | h
    · simp [h]
    · simp at h
  | cons x xs ih =>
    intro a y hy
    simp only [List.foldl_cons]
    by_cases hc : a.1 < x.1
    · rw [if_pos hc]
      have h2 := ih x x (List.mem_cons_self _ _)
      rcases List.mem_cons.mp hy with h1 | h1
      · rw [h1]; omega
      · rcases List.mem_cons.mp h1 with h3 | h3
        · rw [h3]; exact h2
        · exact ih x y (List.mem_cons_of_mem _ h3)
    · rw [if_neg hc]
      have h2 := ih a a (List.mem_cons_self _ _)
      rcases List.mem_cons.mp hy with h1 | h1
      · rw [h1]; exact h2
      · rcases List.mem_cons.mp h1 with h3 | h3
        · rw [h3]; omega
        · exact ih a y (List.mem_cons_of_mem _ h3)

theorem model_versions_pairs_eq (b : Bucket) (folder : String) :
    ((list_blobs b folder).filterMap (fun blobName =>
      match Inference.re_search_model_v blobName with
      | some version => some (version, folder ++ "model_v" ++ toString version ++ "/")
      | none => none))
    = (Inference.model_version_nums b folder).map
        (fun v => (v, folder ++ "model_v" ++ toString v ++ "/")) := by
  unfold Inference.model_version_nums
  generalize list_blobs b folder = l
  induction l with
  | nil => rfl
  | cons n ns ih =>
    simp only [List.filterMap_cons]
    cases h : Inference.re_search_model_v n <;> simp [h, ih]

/-- Claim C3: `get_latest_model_version` raises when no blob under the
production folder matches `model_v{N}/`, and otherwise returns the prefix
built from the numerically largest matched version (so 10 beats 9, unlike
lexicographic ordering). -/
theorem C3_latest_model_version :
    (∀ (b : Bucket) (folder : String),
      Inference.model_version_nums b folder = [] →
        Inference.get_latest_model_version b folder =
          .error "No model versions found in the production folder.") ∧
    (∀ (b : Bucket) (folder : String),
      Inference.model_version_nums b folder ≠ [] →
        ∃ M, M ∈ Inference.model_version_nums b folder ∧
          (∀ v ∈ Inference.model_version_nums b folder, v ≤ M) ∧
          Inference.get_latest_model_version b folder =
            .ok (folder ++ "model_v" ++ toString M ++ "/")) ∧
    Inference.get_latest_model_version
      ⟨["models/production/model_v9/weights/best.pt",
        "models/production/model_v10/weights/best.pt"]⟩ "models/production/"
      = .ok "models/production/model_v10/" := by
  refine ⟨?_, ?_, ?_⟩
  · intro b folder hnil
    unfold Inference.get_latest_model_version
    rw [model_versions_pairs_eq, hnil]
    rfl
  · intro b folder hne
    obtain ⟨v, vs, hn⟩ := List.exists_cons_of_ne_nil hne
    have hpairs :
        ((list_blobs b folder).filterMap (fun blobName =>
          match Inference.re_search_model_v blobName with
          | some version =>
            some (version, folder ++ "model_v" ++ toString version ++ "/")
          | none => none))
        = (v, folder ++ "model_v" ++ toString v ++ "/") ::
            vs.map (fun u => (u, folder ++ "model_v" ++ toString u ++ "/")) := by
      rw [model_versions_pairs_eq, hn, List.map_cons]
    have hget : Inference.get_latest_model_version b folder =
        .ok (((vs.map (fun u => (u, folder ++ "model_v" ++ toString u ++ "/"))).foldl
          (fun acc x => if acc.1 < x.1 then x else acc)
          (v, folder ++ "model_v" ++ toString v ++ "/")).2) := by
      unfold Inference.get_latest_model_version
      rw [hpairs]
    set latest :=
      ((vs.map (fun u => (u, folder ++ "model_v" ++ toString u ++ "/"))).foldl
        (fun acc x => if acc.1 < x.1 then x else acc)
        (v, folder ++ "model_v" ++ toString v ++ "/")) with hlatest
    have hmem : latest ∈ (v, folder ++ "model_v" ++ toString v ++ "/") ::
        vs.map (fun u => (u, folder ++ "model_v" ++ toString u ++ "/")) :=
      foldl_max_pair_mem _ _
    have hshape : latest.2 = folder ++ "model_v" ++ toString latest.1 ++ "/" := by
      rcases List.mem_cons.mp hmem with h | h
      · rw [h]
      · rcases List.mem_map.mp h with ⟨u, _, hu⟩
        rw [← hu]
    refine ⟨latest.1, ?_, ?_, ?_⟩
    · rw [hn]
      rcases List.mem_cons.mp hmem with h | h
      · rw [h]; exact List.mem_cons_self _ _
      · rcases List.mem_map.mp h with ⟨u, hu1, hu2⟩
        have hu3 : latest.1 = u := by rw [← hu2]
        rw [hu3]
        exact List.mem_cons_of_mem _ hu1
    · intro w hw
      rw [hn] at hw
      have hwp : (w, folder ++ "model_v" ++ toString w ++ "/") ∈
          (v, folder ++ "model_v" ++ toString v ++ "/") ::
            vs.map (fun u => (u, folder ++ "model_v" ++ toString u ++ "/")) := by
        rcases List.mem_cons.mp hw with h | h
        · rw [h]; exact List.mem_cons_self _ _
        · exact List.mem_cons_of_mem _ (List.mem_map.mpr ⟨w, h, rfl⟩)
      exact foldl_max_pair_le _ _ _ hwp
    · rw [hget, hshape]
  · rfl

/-- Witness for C3: the empty bucket raises, and a one-model bucket returns
the prefix of its single (hence maximal) version. -/
theorem C3_latest_model_version_witness :
    Inference.get_latest_model_version (⟨[]⟩ : Bucket) "models/production/"
      = .error "No model versions found in the production folder." ∧
    ∃ M, M ∈ Inference.model_version_nums
        ⟨["models/production/model_v2/weights/best.pt"]⟩ "models/production/" ∧
      (∀ v ∈ Inference.model_version_nums
          ⟨["models/production/model_v2/weights/best.pt"]⟩ "models/production/", v ≤ M) ∧
      Inference.get_latest_model_version
          ⟨["models/production/model_v2/weights/best.pt"]⟩ "models/production/"
        = .ok ("models/production/" ++ "model_v" ++ toString M ++ "/") :=
  ⟨C3_latest_model_version.1 _ _ rfl,
   C3_latest_model_version.2.1 _ _ (by decide)⟩

theorem export_poll_go_all_202 (polls : Nat → Nat) :
    ∀ (remaining attempt : Nat),
      (∀ n, attempt ≤ n → n < attempt + remaining → polls n = 202) →
      CVAT.export_poll_go polls attempt remaining = .error "Export timed out" := by
  intro remaining
  induction remaining with
  | zero => intro attempt _; rfl
  | succ r ih =>
    intro attempt h
    have h0 : polls attempt = 202 := h attempt (le_refl _) (by omega)
    unfold CVAT.export_poll_go
    simp only [h0]
    norm_num
    exact ih (attempt + 1) (fun n h1 h2 => h n (by omega) (by omega))

/-- Claim C5, counterexample: with an accepted export (HTTP 202, request id
42) and every status poll returning 202, the polling loop exhausts its 60
attempts and raises `Export timed out` inside `export_annotations`, but the
enclosing handler catches it — the caller receives the normal return value
`False`, not an exception. -/
theorem C5_counterexample_timeout_returns_false :
    CVAT.export_annotations_inner ⟨202, some "42"⟩ (fun _ => 202)
      = .error "Export timed out" ∧
    CVAT.export_annotations ⟨202, some "42"⟩ (fun _ => 202) = false :=
  ⟨rfl, rfl⟩

/-- Claim C5 (amended): a failed status response or exhaustion of the 60
polling attempts raises an exception inside `export_annotations`, but the
method catches every exception itself and returns `False` to its caller
(a normal return, not a raise). -/
theorem C5_export_failure_behavior :
    (∀ (resp : CVAT.ExportResponse) (polls : Nat → Nat) (e : String),
      CVAT.export_annotations_inner resp polls = .error e →
      CVAT.export_annotations resp polls = false) ∧
    (∀ (rq : String) (polls : Nat → Nat),
      rq ≠ "" → (∀ n, n < 60 → polls n = 202) →
      CVAT.export_annotations_inner ⟨202, some rq⟩ polls
        = .error "Export timed out") ∧
    (∀ (resp : CVAT.ExportResponse) (polls : Nat → Nat),
      resp.status_code ≠ 200 → resp.status_code ≠ 201 → resp.status_code ≠ 202 →
      CVAT.export_annotations_inner resp polls
          = .error ("Export failed: " ++ toString resp.status_code) ∧
        CVAT.export_annotations resp polls = false) := by
  refine ⟨?_, ?_, ?_⟩
  · intro resp polls e h
    unfold CVAT.export_annotations
    rw [h]
  · intro rq polls hrq hpolls
    have hgo : CVAT.export_poll_go polls 0 60 = .error "Export timed out" :=
      export_poll_go_all_202 polls 60 0 (fun n _ h2 => hpolls n (by omega))
    unfold CVAT.export_annotations_inner
    simp [hrq, hgo]
  · intro resp polls h200 h201 h202
    have hinner : CVAT.export_annotations_inner resp polls
        = .error ("Export failed: " ++ toString resp.status_code) := by
      unfold CVAT.export_annotations_inner
      simp [h200, h201, h202]
    refine ⟨hinner, ?_⟩
    unfold CVAT.export_annotations
    rw [hinner]

/-- Witness for C5: a 202-forever poll stream yields the timeout error
internally, and a rejected (HTTP 500) export yields a `False` return. -/
theorem C5_export_failure_behavior_witness :
    CVAT.export_annotations_inner ⟨202, some "7"⟩ (fun _ => 202)
      = .error "Export timed out" ∧
    CVAT.export_annotations ⟨500, none⟩ (fun _ => 202) = false :=
  ⟨C5_export_failure_behavior.2.1 "7" _ (by decide) (fun _ _ => rfl),
   (C5_export_failure_behavior.2.2 ⟨500, none⟩ _ (by decide) (by decide) (by decide)).2⟩

/-- Claim C6: with an accepted export (HTTP 202, rq_id 42) and status polls
returning 202 five times then 201, the client succeeds exactly at attempt
index 5 — the sixth poll — and not at any earlier attempt; in general a
200/201 poll terminates the loop successfully, a 202 poll continues to the
next attempt, and any other status ends the export unsuccessfully. -/
theorem C6_export_polling_scenario :
    (CVAT.export_poll_go (fun n => if n < 5 then 202 else 201) 0 60 = .ok 5 ∧
     CVAT.export_annotations ⟨202, some "42"⟩
       (fun n => if n < 5 then 202 else 201) = true) ∧
    (∀ (polls : Nat → Nat) (attempt remaining : Nat),
      (polls attempt = 200 ∨ polls attempt = 201) →
      CVAT.export_poll_go polls attempt (remaining + 1) = .ok attempt) ∧
    (∀ (polls : Nat → Nat) (attempt remaining : Nat),
      polls attempt = 202 →
      CVAT.export_poll_go polls attempt (remaining + 1) =
        CVAT.export_poll_go polls (attempt + 1) remaining) ∧
    (∀ (polls : Nat → Nat) (attempt remaining : Nat),
      polls attempt ≠ 200 → polls attempt ≠ 201 → polls attempt ≠ 202 →
      CVAT.export_poll_go polls attempt (remaining + 1) =
        .error ("Export failed: " ++ toString (polls attempt))) ∧
    (∀ (rq : String) (polls : Nat → Nat) (e : String),
      CVAT.export_poll_go polls 0 60 = .error e →
      CVAT.export_annotations ⟨202, some rq⟩ polls = false) := by
  refine ⟨⟨rfl, rfl⟩, ?_, ?_, ?_, ?_⟩
  · intro polls attempt remaining h
    unfold CVAT.export_poll_go
    rcases h with h | h <;> simp [h]
  · intro polls attempt remaining h
    conv_lhs => unfold CVAT.export_poll_go
    simp [h]
  · intro polls attempt remaining h200 h201 h202
    unfold CVAT.export_poll_go
    simp [h200, h201, h202]
  · intro rq polls e hgo
    unfold CVAT.export_annotations CVAT.export_annotations_inner
    by_cases hrq : rq = "" <;> simp [hrq, hgo]

/-- Witness for C6: each polling clause at a concrete poll stream. -/
theorem C6_export_polling_scenario_witness :
    CVAT.export_poll_go (fun _ => 200) 0 1 = .ok 0 ∧
    CVAT.export_poll_go (fun _ => 202) 3 5 = CVAT.export_poll_go (fun _ => 202) 4 4 ∧
    CVAT.export_poll_go (fun _ => 500) 0 1
      = .error ("Export failed: " ++ toString 500) ∧
    CVAT.export_annotations ⟨202, some "42"⟩ (fun _ => 500) = false :=
  ⟨C6_export_polling_scenario.2.1 _ 0 0 (Or.inl rfl),
   C6_export_polling_scenario.2.2.1 _ 3 4 rfl,
   C6_export_polling_scenario.2.2.2.1 _ 0 0 (by decide) (by decide) (by decide),
   C6_export_polling_scenario.2.2.2.2 "42" _ ("Export failed: " ++ toString 500) rfl⟩

theorem cvat_candidates_inv (b : Bucket) (manifest : CvatDownload.Manifest)
    (device date : String)
    (hmem : (device, date) ∈ CvatDownload.cvat_download_candidates b manifest) :
    CvatDownload.folder_exists b (device ++ "/" ++ date ++ "/auto-annotations/") = true ∧
    CvatDownload.folder_exists b (device ++ "/" ++ date ++ "/annotations/") = false := by
  unfold CvatDownload.cvat_download_candidates at hmem
  simp only [List.mem_flatMap, List.mem_filterMap] at hmem
  obtain ⟨dev, _, d, _, heq⟩ := hmem
  split at heq
  · cases heq
  · split at heq
    · rename_i hcond
      injection heq with heq2
      rw [Prod.mk.injEq] at heq2
      obtain ⟨rfl, rfl⟩ := heq2
      rw [Bool.and_eq_true, Bool.not_eq_true'] at hcond
      exact ⟨hcond.1, hcond.2⟩
    · cases heq

/-- Claim C4: a (device, date) folder is selected as an export candidate
only when its `auto-annotations/` folder exists and its `annotations/`
folder does not; a folder where both are present is never selected. -/
theorem C4_export_candidate_selection :
    (∀ (b : Bucket) (manifest : CvatDownload.Manifest) (device date : String),
      (device, date) ∈ CvatDownload.cvat_download_candidates b manifest →
      CvatDownload.folder_exists b
          (device ++ "/" ++ date ++ "/auto-annotations/") = true ∧
        CvatDownload.folder_exists b
          (device ++ "/" ++ date ++ "/annotations/") = false) ∧
    (∀ (b : Bucket) (manifest : CvatDownload.Manifest) (device date : String),
      CvatDownload.folder_exists b
          (device ++ "/" ++ date ++ "/auto-annotations/") = true →
      CvatDownload.folder_exists b
          (device ++ "/" ++ date ++ "/annotations/") = true →
      (device, date) ∉ CvatDownload.cvat_download_candidates b manifest) := by
  constructor
  · exact cvat_candidates_inv
  · intro b manifest device date _ hannot hmem
    have h := cvat_candidates_inv b manifest device date hmem
    rw [hannot] at h
    cases h.2

/-- Witness for C4: a bucket with only an auto-annotations object yields
("1", "2025-1-4") as a candidate, and the theorem then certifies the two
folder-existence facts for it. -/
theorem C4_export_candidate_selection_witness :
    CvatDownload.folder_exists ⟨["1/2025-1-4/auto-annotations/x.txt"]⟩
        "1/2025-1-4/auto-annotations/" = true ∧
      CvatDownload.folder_exists ⟨["1/2025-1-4/auto-annotations/x.txt"]⟩
        "1/2025-1-4/annotations/" = false :=
  C4_export_candidate_selection.1 ⟨["1/2025-1-4/auto-annotations/x.txt"]⟩ []
    "1" "2025-1-4" (by decide)

/-! ### Association-list lemmas for the manifest embedding -/

theorem key_pres_set {α : Type} (k : String) (v : α) (p : String × α) :
    ((if p.1 = k then (k, v) else p) : String × α).1 = p.1 := by
  by_cases hp : p.1 = k <;> simp [hp]

theorem keys_map_keypres {α : Type} (l : List (String × α))
    (f : String × α → String × α) (hf : ∀ p, (f p).1 = p.1) :
    (l.map f).map Prod.fst = l.map Prod.fst := by
  induction l with
  | nil => rfl
  | cons p ps ih => simp [hf p, ih]

theorem any_map_keypres {α : Type} (l : List (String × α))
    (f : String × α → String × α) (hf : ∀ p, (f p).1 = p.1) (k : String) :
    (l.map f).any (fun p => decide (p.1 = k)) = l.any (fun p => decide (p.1 = k)) := by
  induction l with
  | nil => rfl
  | cons p ps ih => simp [List.any_cons, hf p, ih]

theorem find_map_keypres {α : Type} (l : List (String × α))
    (f : String × α → String × α) (hf : ∀ p, (f p).1 = p.1) (k : String) :
    (l.map f).find? (fun p => decide (p.1 = k)) =
      (l.find? (fun p => decide (p.1 = k))).map f := by
  induction l with
  | nil => rfl
  | cons p ps ih =>
    by_cases hp : p.1 = k
    · rw [List.map_cons, List.find?_cons_of_pos _ (by simp [hf p, hp]),
        List.find?_cons_of_pos _ (by simp [hp])]
      rfl
    · rw [List.map_cons, List.find?_cons_of_neg _ (by simp [hf p, hp]),
        List.find?_cons_of_neg _ (by simp [hp])]
      exact ih

theorem not_any_imp_no_key {α : Type} (l : List (String × α)) (k : String)
    (h : ¬ l.any (fun p => decide (p.1 = k)) = true) :
    ∀ p ∈ l, p.1 ≠ k := by
  intro p hp hpk
  exact h (List.any_eq_true.mpr ⟨p, hp, by simp [hpk]⟩)

theorem map_id_of_no_key {α : Type} (l : List (String × α)) (k : String) (v : α)
    (h : ∀ p ∈ l, p.1 ≠ k) :
    l.map (fun p => if p.1 = k then (k, v) else p) = l := by
  induction l with
  | nil => rfl
  | cons p ps ih =>
    rw [List.map_cons, if_neg (h p (List.mem_cons_self _ _)),
      ih (fun q hq => h q (List.mem_cons_of_mem _ hq))]

theorem find_append_none {α : Type} (l l2 : List α) (p : α → Bool)
    (h : l.find? p = none) : (l ++ l2).find? p = l2.find? p := by
  induction l with
  | nil => rfl
  | cons a as ih =>
    by_cases hpa : p a
    · rw [List.find?_cons_of_pos _ hpa] at h; cases h
    · rw [List.cons_append, List.find?_cons_of_neg _ hpa]
      rw [List.find?_cons_of_neg _ hpa] at h
      exact ih h

theorem find_append_some {α : Type} (l l2 : List α) (p : α → Bool) (a : α)
    (h : l.find? p = some a) : (l ++ l2).find? p = some a := by
  induction l with
  | nil => cases h
  | cons x xs ih =>
    by_cases hpx : p x
    · rw [List.find?_cons_of_pos _ hpx] at h
      rw [List.cons_append, List.find?_cons_of_pos _ hpx]
      exact h
    · rw [List.find?_cons_of_neg _ hpx] at h
      rw [List.cons_append, List.find?_cons_of_neg _ hpx]
      exact ih h

theorem dict_set_set {α : Type} (l : List (String × α)) (k : String) (v1 v2 : α) :
    dict_set (dict_set l k v1) k v2 =
      dict_set l k v2 := by
  by_cases h : l.any (fun p => decide (p.1 = k)) = true
  · have h1 : dict_set l k v1
        = l.map (fun p => if p.1 = k then (k, v1) else p) := by
      unfold dict_set; rw [if_pos h]
    have h2 : dict_set l k v2
        = l.map (fun p => if p.1 = k then (k, v2) else p) := by
      unfold dict_set; rw [if_pos h]
    have h3 : (l.map (fun p => if p.1 = k then (k, v1) else p)).any
        (fun p => decide (p.1 = k)) = true := by
      rw [any_map_keypres l _ (key_pres_set k v1) k]; exact h
    have h4 : dict_set
          (l.map (fun p => if p.1 = k then (k, v1) else p)) k v2
        = (l.map (fun p => if p.1 = k then (k, v1) else p)).map
            (fun p => if p.1 = k then (k, v2) else p) := by
      unfold dict_set; rw [if_pos h3]
    rw [h1, h4, List.map_map, h2]
    apply List.map_congr_left
    intro p _
    by_cases hp : p.1 = k <;> simp [Function.comp, hp]
  · have h1 : dict_set l k v1 = l ++ [(k, v1)] := by
      unfold dict_set; rw [if_neg h]
    have h2 : dict_set l k v2 = l ++ [(k, v2)] := by
      unfold dict_set; rw [if_neg h]
    have h3 : ((l ++ [(k, v1)]).any (fun p => decide (p.1 = k))) = true := by
      rw [List.any_append]; simp
    have h4 : dict_set (l ++ [(k, v1)]) k v2
        = (l ++ [(k, v1)]).map (fun p => if p.1 = k then (k, v2) else p) := by
      unfold dict_set; rw [if_pos h3]
    rw [h1, h4, List.map_append, map_id_of_no_key l k v2 (not_any_imp_no_key l k h), h2]
    simp

theorem find_map_set {α : Type} (l : List (String × α)) (k : String) (v : α)
    (h : l.any (fun p => decide (p.1 = k)) = true) :
    (l.map (fun p => if p.1 = k then (k, v) else p)).find?
        (fun p => decide (p.1 = k)) = some (k, v) := by
  induction l with
  | nil => simp at h
  | cons p ps ih =>
    by_cases hp : p.1 = k
    · rw [List.map_cons, if_pos hp, List.find?_cons_of_pos _ (by simp)]
    · rw [List.map_cons, if_neg hp, List.find?_cons_of_neg _ (by simp [hp])]
      apply ih
      rw [List.any_cons] at h
      simp only [Bool.or_eq_true, decide_eq_true_eq] at h
      rcases h with h | h
      · exact absurd h hp
      · exact h

theorem find_dict_set_self {α : Type} (l : List (String × α)) (k : String) (v : α) :
    (dict_set l k v).find? (fun p => decide (p.1 = k)) = some (k, v) := by
  unfold dict_set
  by_cases h : l.any (fun p => decide (p.1 = k)) = true
  · rw [if_pos h]
    exact find_map_set l k v h
  · rw [if_neg h]
    have hl : l.find? (fun p => decide (p.1 = k)) = none := by
      rw [List.find?_eq_none]
      intro p hp
      simp only [decide_eq_true_eq]
      exact not_any_imp_no_key l k h p hp
    rw [find_append_none _ _ _ hl, List.find?_cons_of_pos _ (by simp)]

theorem find_map_set_other {α : Type} (l : List (String × α)) (k k2 : String) (v : α)
    (hne : k2 ≠ k) :
    (l.map (fun p => if p.1 = k then (k, v) else p)).find?
        (fun p => decide (p.1 = k2))
      = l.find? (fun p => decide (p.1 = k2)) := by
  induction l with
  | nil => rfl
  | cons p ps ih =>
    by_cases hp : p.1 = k
    · rw [List.map_cons, if_pos hp,
        List.find?_cons_of_neg _ (by simp; exact hne.symm),
        List.find?_cons_of_neg _ (by simp [hp]; exact hne.symm)]
      exact ih
    · rw [List.map_cons, if_neg hp]
      by_cases hp2 : p.1 = k2
      · rw [List.find?_cons_of_pos _ (by simp [hp2]),
          List.find?_cons_of_pos _ (by simp [hp2])]
      · rw [List.find?_cons_of_neg _ (by simp [hp2]),
          List.find?_cons_of_neg _ (by simp [hp2])]
        exact ih

theorem find_dict_set_other {α : Type} (l : List (String × α)) (k k2 : String)
    (v : α) (hne : k2 ≠ k) :
    (dict_set l k v).find? (fun p => decide (p.1 = k2))
      = l.find? (fun p => decide (p.1 = k2)) := by
  unfold dict_set
  by_cases h : l.any (fun p => decide (p.1 = k)) = true
  · rw [if_pos h]
    exact find_map_set_other l k k2 v hne
  · rw [if_neg h]
    cases hf : l.find? (fun p => decide (p.1 = k2)) with
    | none =>
      rw [find_append_none _ _ _ hf,
        List.find?_cons_of_neg _ (by simp; exact hne.symm)]
      rfl
    | some a => exact find_append_some _ _ _ _ hf

theorem update_key_pres (device date status now : String)
    (p : String × CvatDownload.InnerManifest) :
    ((if p.1 = device then (p.1, dict_set p.2 date ⟨status, now⟩)
      else p) : String × CvatDownload.InnerManifest).1 = p.1 := by
  by_cases hp : p.1 = device <;> simp [hp]

theorem map_id_of_no_key_gen {α : Type} (l : List (String × α)) (k : String)
    (f : String × α → String × α) (hf : ∀ p, p.1 ≠ k → f p = p)
    (h : ∀ p ∈ l, p.1 ≠ k) : l.map f = l := by
  induction l with
  | nil => rfl
  | cons p ps ih =>
    rw [List.map_cons, hf p (h p (List.mem_cons_self _ _)),
      ih (fun q hq => h q (List.mem_cons_of_mem _ hq))]

theorem update_manifest_apply (m : CvatDownload.Manifest)
    (device date status now : String)
    (hany : m.any (fun p => decide (p.1 = device)) = true) :
    CvatDownload.update_processed_manifest m device date status now
      = m.map (fun p =>
          if p.1 = device then (p.1, dict_set p.2 date ⟨status, now⟩)
          else p) := by
  unfold CvatDownload.update_processed_manifest
  rw [if_pos hany]

theorem update_manifest_apply_new (m : CvatDownload.Manifest)
    (device date status now : String)
    (hany : ¬ m.any (fun p => decide (p.1 = device)) = true) :
    CvatDownload.update_processed_manifest m device date status now
      = m ++ [(device, [(date, ⟨status, now⟩)])] := by
  unfold CvatDownload.update_processed_manifest
  rw [if_neg hany, List.map_append,
    map_id_of_no_key_gen m device _ (fun p hp => if_neg hp)
      (not_any_imp_no_key m device hany)]
  simp [dict_set]

theorem update_manifest_idem (m : CvatDownload.Manifest)
    (device date status now1 now2 : String) :
    CvatDownload.update_processed_manifest
        (CvatDownload.update_processed_manifest m device date status now1)
        device date status now2
      = CvatDownload.update_processed_manifest m device date status now2 := by
  by_cases hany : m.any (fun p => decide (p.1 = device)) = true
  · have hany2 : ((m.map (fun p =>
        if p.1 = device then (p.1, dict_set p.2 date ⟨status, now1⟩)
        else p)).any (fun p => decide (p.1 = device))) = true := by
      rw [any_map_keypres m _ (update_key_pres device date status now1) device]
      exact hany
    rw [update_manifest_apply m device date status now1 hany,
      update_manifest_apply _ device date status now2 hany2,
      update_manifest_apply m device date status now2 hany, List.map_map]
    apply List.map_congr_left
    intro p _
    by_cases hp : p.1 = device
    · simp [Function.comp, hp, dict_set_set]
    · simp [Function.comp, hp]
  · have hany2 : ((m ++ [(device,
        [(date, (⟨status, now1⟩ : CvatDownload.ManifestEntry))])]).any
        (fun p => decide (p.1 = device))) = true := by
      rw [List.any_append]; simp
    rw [update_manifest_apply_new m device date status now1 hany,
      update_manifest_apply _ device date status now2 hany2,
      update_manifest_apply_new m device date status now2 hany,
      List.map_append,
      map_id_of_no_key_gen m device _ (fun p hp => if_neg hp)
        (not_any_imp_no_key m device hany)]
    simp [dict_set]

theorem manifest_lookup_update (m : CvatDownload.Manifest)
    (device date status now d k : String) :
    CvatDownload.manifest_lookup
        (CvatDownload.update_processed_manifest m device date status now) d k
      = if d = device ∧ k = date then some ⟨status, now⟩
        else CvatDownload.manifest_lookup m d k := by
  by_cases hany : m.any (fun p => decide (p.1 = device)) = true
  · rw [update_manifest_apply m device date status now hany]
    unfold CvatDownload.manifest_lookup dict_get
    rw [find_map_keypres m _ (update_key_pres device date status now) d]
    cases hfind : m.find? (fun p => decide (p.1 = d)) with
    | none =>
      by_cases hd : d = device
      · subst hd
        obtain ⟨p, hp, hpd⟩ := List.any_eq_true.mp hany
        rw [List.find?_eq_none] at hfind
        exact absurd hpd (hfind p hp)
      · rw [if_neg (fun hc => hd hc.1)]
        simp
    | some a =>
      have ha : a.1 = d := by simpa using List.find?_some hfind
      by_cases hd : d = device
      · subst hd
        by_cases hk : k = date
        · rw [if_pos (show d = d ∧ k = date from ⟨rfl, hk⟩)]
          subst hk
          simp [ha, find_dict_set_self]
        · rw [if_neg (fun hc => hk hc.2)]
          simp [ha, find_dict_set_other a.2 date k _ hk]
      · rw [if_neg (fun hc => hd hc.1)]
        have hfa : ((if a.1 = device
            then (a.1, dict_set a.2 date ⟨status, now⟩) else a) :
              String × CvatDownload.InnerManifest) = a := by
          rw [if_neg (by rw [ha]; exact hd)]
        simp [hfa]
  · rw [update_manifest_apply_new m device date status now hany]
    unfold CvatDownload.manifest_lookup dict_get
    have hfindm : m.find? (fun p => decide (p.1 = device)) = none := by
      rw [List.find?_eq_none]
      intro p hp
      simp only [decide_eq_true_eq]
      exact not_any_imp_no_key m device hany p hp
    by_cases hd : d = device
    · subst hd
      rw [find_append_none _ _ _ hfindm, List.find?_cons_of_pos _ (by simp),
        hfindm]
      by_cases hk : k = date
      · rw [if_pos (show d = d ∧ k = date from ⟨rfl, hk⟩)]
        subst hk
        simp
      · rw [if_neg (fun hc => hk hc.2)]
        have hdk : (decide (date = k)) = false :=
          decide_eq_false (fun hc : date = k => hk hc.symm)
        simp [List.find?, hdk]
    · rw [if_neg (fun hc => hd hc.1)]
      cases hfind : m.find? (fun p => decide (p.1 = d)) with
      | none =>
        rw [find_append_none _ _ _ hfind,
          List.find?_cons_of_neg _ (by simp; exact fun hc => hd hc.symm)]
        simp [hfind]
      | some a =>
        rw [find_append_some _ _ _ _ hfind]

theorem dict_set_nodup_keys {α : Type} (l : List (String × α)) (k : String) (v : α)
    (h : (l.map Prod.fst).Nodup) :
    ((dict_set l k v).map Prod.fst).Nodup := by
  unfold dict_set
  by_cases hany : l.any (fun p => decide (p.1 = k)) = true
  · rw [if_pos hany, keys_map_keypres l _ (key_pres_set k v)]
    exact h
  · rw [if_neg hany, List.map_append]
    simp only [List.map_cons, List.map_nil]
    rw [List.nodup_append]
    refine ⟨h, List.nodup_singleton _, ?_⟩
    intro a ha hb
    rw [List.mem_singleton] at hb
    obtain ⟨p, hp, hpk⟩ := List.mem_map.mp ha
    exact not_any_imp_no_key l k hany p hp (hpk.trans hb)

theorem update_manifest_nodup_keys (m : CvatDownload.Manifest)
    (device date status now : String) (hN : (m.map Prod.fst).Nodup) :
    ((CvatDownload.update_processed_manifest m device date status now).map
      Prod.fst).Nodup := by
  by_cases hany : m.any (fun p => decide (p.1 = device)) = true
  · rw [update_manifest_apply m device date status now hany,
      keys_map_keypres m _ (update_key_pres device date status now)]
    exact hN
  · rw [update_manifest_apply_new m device date status now hany, List.map_append]
    simp only [List.map_cons, List.map_nil]
    rw [List.nodup_append]
    refine ⟨hN, List.nodup_singleton _, ?_⟩
    intro a ha hb
    rw [List.mem_singleton] at hb
    obtain ⟨p, hp, hpk⟩ := List.mem_map.mp ha
    exact not_any_imp_no_key m device hany p hp (hpk.trans hb)

theorem update_manifest_inner_nodup (m : CvatDownload.Manifest)
    (device date status now : String)
    (hI : ∀ p ∈ m, (p.2.map Prod.fst).Nodup) :
    ∀ p ∈ CvatDownload.update_processed_manifest m device date status now,
      (p.2.map Prod.fst).Nodup := by
  intro p hp
  by_cases hany : m.any (fun p => decide (p.1 = device)) = true
  · rw [update_manifest_apply m device date status now hany] at hp
    obtain ⟨q, hq, hfq⟩ := List.mem_map.mp hp
    by_cases hqd : q.1 = device
    · rw [if_pos hqd] at hfq
      rw [← hfq]
      exact dict_set_nodup_keys q.2 date _ (hI q hq)
    · rw [if_neg hqd] at hfq
      rw [← hfq]
      exact hI q hq
  · rw [update_manifest_apply_new m device date status now hany] at hp
    rcases List.mem_append.mp hp with h | h
    · exact hI p h
    · rw [List.mem_singleton] at h
      subst h
      simp

theorem filter_key_nodup {α : Type} (l : List (String × α)) (k : String)
    (hN : (l.map Prod.fst).Nodup) :
    l.filter (fun p => decide (p.1 = k))
      = match l.find? (fun p => decide (p.1 = k)) with
        | none => []
        | some p => [p] := by
  induction l with
  | nil => rfl
  | cons p ps ih =>
    rw [List.map_cons, List.nodup_cons] at hN
    by_cases hp : p.1 = k
    · rw [List.filter_cons_of_pos (by simp [hp]),
        List.find?_cons_of_pos _ (by simp [hp])]
      have hnil : ps.filter (fun q => decide (q.1 = k)) = [] := by
        rw [List.filter_eq_nil_iff]
        intro q hq
        simp only [decide_eq_true_eq]
        intro hqk
        have hmm : p.1 ∈ ps.map Prod.fst := by
          rw [hp, ← hqk]
          exact List.mem_map_of_mem Prod.fst hq
        exact hN.1 hmm
      rw [hnil]
    · rw [List.filter_cons_of_neg (by simp [hp]),
        List.find?_cons_of_neg _ (by simp [hp])]
      exact ih hN.2

theorem entry_count_nodup (m : CvatDownload.Manifest) (device date : String)
    (hN : (m.map Prod.fst).Nodup) (hI : ∀ p ∈ m, (p.2.map Prod.fst).Nodup)
    (e : CvatDownload.ManifestEntry)
    (hfound : CvatDownload.manifest_lookup m device date = some e) :
    CvatDownload.manifest_entry_count m device date = 1 := by
  unfold CvatDownload.manifest_entry_count
  unfold CvatDownload.manifest_lookup dict_get at hfound
  cases hfind : m.find? (fun p => decide (p.1 = device)) with
  | none => rw [hfind] at hfound; simp at hfound
  | some p0 =>
    rw [hfind] at hfound
    simp only [Option.map_some', Option.some_bind] at hfound
    rw [filter_key_nodup m device hN, hfind]
    simp only [List.flatMap_cons, List.flatMap_nil, List.append_nil]
    have hp0 : p0 ∈ m := List.mem_of_find?_eq_some hfind
    rw [filter_key_nodup p0.2 date (hI p0 hp0)]
    cases hfind2 : p0.2.find? (fun q => decide (q.1 = date)) with
    | none => rw [hfind2] at hfound; simp at hfound
    | some q => rfl

/-- Claim C7: updating the manifest twice for a fixed (device, date) with
status "completed" is idempotent — the double update equals the single
later update; the resulting manifest maps (device, date) to status
"completed" with the later timestamp, is unchanged at every other
(device, date) key, and (under the unique-key dict invariant) holds exactly
one entry for the pair. -/
theorem C7_manifest_update_idempotent :
    (∀ (m : CvatDownload.Manifest) (device date t1 t2 : String),
      CvatDownload.update_processed_manifest
          (CvatDownload.update_processed_manifest m device date "completed" t1)
          device date "completed" t2
        = CvatDownload.update_processed_manifest m device date "completed" t2) ∧
    (∀ (m : CvatDownload.Manifest) (device date t1 t2 d k : String),
      CvatDownload.manifest_lookup
          (CvatDownload.update_processed_manifest
            (CvatDownload.update_processed_manifest m device date "completed" t1)
            device date "completed" t2) d k
        = if d = device ∧ k = date then some ⟨"completed", t2⟩
          else CvatDownload.manifest_lookup m d k) ∧
    (∀ (m : CvatDownload.Manifest) (device date t1 t2 : String),
      (m.map Prod.fst).Nodup →
      (∀ p ∈ m, (p.2.map Prod.fst).Nodup) →
      CvatDownload.manifest_entry_count
          (CvatDownload.update_processed_manifest
            (CvatDownload.update_processed_manifest m device date "completed" t1)
            device date "completed" t2) device date = 1) := by
  refine ⟨?_, ?_, ?_⟩
  · intro m device date t1 t2
    exact update_manifest_idem m device date "completed" t1 t2
  · intro m device date t1 t2 d k
    rw [update_manifest_idem, manifest_lookup_update]
  · intro m device date t1 t2 hN hI
    rw [update_manifest_idem]
    apply entry_count_nodup _ _ _
      (update_manifest_nodup_keys m device date "completed" t2 hN)
      (update_manifest_inner_nodup m device date "completed" t2 hI)
      ⟨"completed", t2⟩
    rw [manifest_lookup_update]
    simp

/-- Witness for C7: the double update on a small manifest holding an
unrelated device leaves exactly one (1, 2025-1-4) entry. -/
theorem C7_manifest_update_idempotent_witness :
    CvatDownload.manifest_entry_count
        (CvatDownload.update_processed_manifest
          (CvatDownload.update_processed_manifest
            [("2", [("2025-1-3", ⟨"error", "t0"⟩)])]
            "1" "2025-1-4" "completed" "t1")
          "1" "2025-1-4" "completed" "t2") "1" "2025-1-4" = 1 :=
  C7_manifest_update_idempotent.2.2 [("2", [("2025-1-3", ⟨"error", "t0"⟩)])]
    "1" "2025-1-4" "t1" "t2" (by decide) (by decide)

theorem wait_for_zip_timeout (zip_exists : Nat → Except String Bool)
    (zip_process : Except String Unit) :
    ∀ (remaining poll : Nat),
      (∀ n, poll ≤ n → n < poll + remaining → zip_exists n = .ok false) →
      CvatDownload.wait_for_zip zip_exists zip_process poll remaining
        = .ok "timeout_waiting_for_zip" := by
  intro remaining
  induction remaining with
  | zero => intro poll _; rfl
  | succ r ih =>
    intro poll h
    have h0 : zip_exists poll = .ok false := h poll (le_refl _) (by omega)
    unfold CvatDownload.wait_for_zip
    rw [h0]
    show CvatDownload.wait_for_zip zip_exists zip_process (poll + 1) r = _
    exact ih (poll + 1) (fun n h1 h2 => h n (by omega) (by omega))

/-- Claim C8: each distinguishable failure mode of one folder records a
distinct manifest status — export rejected records `export_failed`, a
raise while unpacking the delivered archive records
`failed_zip_processing`, expiry of the 5-minute wait (30 polls at
10-second intervals) records `timeout_waiting_for_zip`, any other
exception escaping to the per-folder handler records `error`, success
records `completed` — the five statuses are pairwise distinct, and the
folder loop is total: every folder gets a status, so processing continues
past failures. -/
theorem C8_failure_mode_statuses :
    (∀ (zip_exists : Nat → Except String Bool) (zip_process : Except String Unit),
      CvatDownload.process_folder false zip_exists zip_process
        = "export_failed") ∧
    (∀ (zip_exists : Nat → Except String Bool) (zip_process : Except String Unit)
        (e : String), zip_exists 0 = .ok true → zip_process = .error e →
      CvatDownload.process_folder true zip_exists zip_process
        = "failed_zip_processing") ∧
    (∀ (zip_exists : Nat → Except String Bool) (zip_process : Except String Unit),
      (∀ n, n < 30 → zip_exists n = .ok false) →
      CvatDownload.process_folder true zip_exists zip_process
        = "timeout_waiting_for_zip") ∧
    (∀ (zip_exists : Nat → Except String Bool) (zip_process : Except String Unit)
        (e : String), zip_exists 0 = .error e →
      CvatDownload.process_folder true zip_exists zip_process = "error") ∧
    (∀ (zip_exists : Nat → Except String Bool) (zip_process : Except String Unit),
      zip_exists 0 = .ok true → zip_process = .ok () →
      CvatDownload.process_folder true zip_exists zip_process = "completed") ∧
    (["completed", "export_failed", "failed_zip_processing",
      "timeout_waiting_for_zip", "error"] : List String).Nodup ∧
    (∀ (folders : List CvatDownload.FolderRun),
      (CvatDownload.cvat_download_statuses folders).length = folders.length) := by
  refine ⟨?_, ?_, ?_, ?_, ?_, by decide, ?_⟩
  · intro zip_exists zip_process
    rfl
  · intro zip_exists zip_process e hz hp
    unfold CvatDownload.process_folder
    unfold CvatDownload.wait_for_zip
    rw [hz, hp]
    rfl
  · intro zip_exists zip_process h
    unfold CvatDownload.process_folder
    rw [wait_for_zip_timeout zip_exists zip_process 30 0
      (fun n _ h2 => h n (by omega))]
    rfl
  · intro zip_exists zip_process e hz
    unfold CvatDownload.process_folder
    unfold CvatDownload.wait_for_zip
    rw [hz]
    rfl
  · intro zip_exists zip_process hz hp
    unfold CvatDownload.process_folder
    unfold CvatDownload.wait_for_zip
    rw [hz, hp]
    rfl
  · intro folders
    exact List.length_map folders _

/-- Witness for C8: each failure mode exercised on concrete behaviours. -/
theorem C8_failure_mode_statuses_witness :
    CvatDownload.process_folder true (fun _ => .ok true) (.error "bad zip")
      = "failed_zip_processing" ∧
    CvatDownload.process_folder true (fun _ => .ok false) (.ok ())
      = "timeout_waiting_for_zip" ∧
    CvatDownload.process_folder true (fun _ => .error "net") (.ok ())
      = "error" ∧
    CvatDownload.process_folder true (fun _ => .ok true) (.ok ())
      = "completed" :=
  ⟨C8_failure_mode_statuses.2.1 _ _ "bad zip" rfl rfl,
   C8_failure_mode_statuses.2.2.1 _ _ (fun _ _ => rfl),
   C8_failure_mode_statuses.2.2.2.1 _ _ "net" rfl,
   C8_failure_mode_statuses.2.2.2.2.1 _ _ rfl rfl⟩

theorem get_task_notfound_nameError (ts : List CVAT.CVATTask) (name : String)
    (h : ∀ t ∈ ts, t.name ≠ name) :
    CVAT.get_task (some ts) name = .error (.nameError "task_name") := by
  have hf : ts.find? (fun t => decide (t.name = name)) = none :=
    List.find?_eq_none.mpr (fun t ht => by simp [h t ht])
  have hred : CVAT.get_task (some ts) name
      = match ts.find? (fun t => decide (t.name = name)) with
        | some t => .ok t
        | none => .error (.nameError "task_name") := rfl
  rw [hred, hf]

/-- Claim C10: when the task cache lacks the requested name, `get_task`
does not raise the documented descriptive exception — its error branch
references the unbound name `task_name` and fails with a NameError; called
before the cache was ever populated it fails by iterating over `None`
(a TypeError); and the fallback path of `get_completed_task` for a task
absent from both caches surfaces the same NameError. -/
theorem C10_get_task_error_paths :
    (∀ (ts : List CVAT.CVATTask) (name : String),
      (∀ t ∈ ts, t.name ≠ name) →
      CVAT.get_task (some ts) name = .error (.nameError "task_name")) ∧
    (∀ (ts : List CVAT.CVATTask) (name msg : String),
      (∀ t ∈ ts, t.name ≠ name) →
      CVAT.get_task (some ts) name ≠ .error (.exception msg)) ∧
    (∀ name : String,
      CVAT.get_task none name
        = .error (.typeError "NoneType object is not iterable")) ∧
    (∀ (cs ts : List CVAT.CVATTask) (name : String),
      (∀ t ∈ cs, t.name ≠ name) → (∀ t ∈ ts, t.name ≠ name) →
      CVAT.get_completed_task (some cs) (some ts) name
        = .error (.nameError "task_name")) := by
  refine ⟨get_task_notfound_nameError, ?_, ?_, ?_⟩
  · intro ts name msg h
    rw [get_task_notfound_nameError ts name h]
    simp
  · intro name
    rfl
  · intro cs ts name hc ht
    have hfc : cs.find? (fun t => decide (t.name = name)) = none :=
      List.find?_eq_none.mpr (fun t htc => by simp [hc t htc])
    have hred : CVAT.get_completed_task (some cs) (some ts) name
        = match cs.find? (fun t => decide (t.name = name)) with
          | some t => .ok t
          | none =>
            match CVAT.get_task (some ts) name with
            | .error e => .error e
            | .ok _ =>
              .error (.exception ("Task " ++ name ++ " is not completed")) := rfl
    rw [hred, hfc, get_task_notfound_nameError ts name ht]

/-- Witness for C10: a populated cache without the requested task name and
the double-miss fallback of `get_completed_task`. -/
theorem C10_get_task_error_paths_witness :
    CVAT.get_task (some [⟨1, "1_2025-1-4", "completed"⟩]) "2_2025-1-4"
      = .error (.nameError "task_name") ∧
    CVAT.get_completed_task (some []) (some []) "2_2025-1-4"
      = .error (.nameError "task_name") :=
  ⟨C10_get_task_error_paths.1 _ _ (by decide),
   C10_get_task_error_paths.2.2.2 [] [] "2_2025-1-4" (by decide) (by decide)⟩

/-! ### Lemmas for the per-image label-file guarantee -/

theorem touch_find_mono (out : List (String × String)) (x k : String)
    (e : String × String)
    (h : out.find? (fun p => decide (p.1 = k)) = some e) :
    (Inference.touch_missing_label out x).find? (fun p => decide (p.1 = k))
      = some e := by
  unfold Inference.touch_missing_label
  by_cases hsup : Inference.IMG_FORMATS.contains (strToLower (py_suffix x)) = true
  · rw [if_pos hsup]
    by_cases hpres :
        (out.find? (fun p => decide (p.1 = py_stem x ++ ".txt"))).isSome = true
    · rw [if_pos hpres]; exact h
    · rw [if_neg hpres]
      exact find_append_some _ _ _ _ h
  · rw [if_neg hsup]; exact h

theorem foldl_touch_find_mono :
    ∀ (l : List String) (out : List (String × String)) (k : String)
      (e : String × String),
      out.find? (fun p => decide (p.1 = k)) = some e →
      (l.foldl Inference.touch_missing_label out).find?
          (fun p => decide (p.1 = k)) = some e := by
  intro l
  induction l with
  | nil => intro out k e h; exact h
  | cons x xs ih =>
    intro out k e h
    rw [List.foldl_cons]
    exact ih _ k e (touch_find_mono out x k e h)

theorem touch_self_present (out : List (String × String)) (img : String)
    (hsup : Inference.IMG_FORMATS.contains (strToLower (py_suffix img)) = true) :
    ∃ e, (Inference.touch_missing_label out img).find?
        (fun p => decide (p.1 = py_stem img ++ ".txt")) = some e := by
  unfold Inference.touch_missing_label
  rw [if_pos hsup]
  by_cases h : (out.find? (fun p => decide (p.1 = py_stem img ++ ".txt"))).isSome
  · rw [if_pos h]
    obtain ⟨e, he⟩ := Option.isSome_iff_exists.mp h
    exact ⟨e, he⟩
  · rw [if_neg h]
    have hnone : out.find? (fun p => decide (p.1 = py_stem img ++ ".txt")) = none :=
      Option.not_isSome_iff_eq_none.mp h
    rw [find_append_none _ _ _ hnone, List.find?_cons_of_pos _ (by simp)]
    exact ⟨(py_stem img ++ ".txt", ""), rfl⟩

theorem foldl_touch_present :
    ∀ (l : List String) (out : List (String × String)) (img : String),
      img ∈ l →
      Inference.IMG_FORMATS.contains (strToLower (py_suffix img)) = true →
      ∃ e, (l.foldl Inference.touch_missing_label out).find?
          (fun p => decide (p.1 = py_stem img ++ ".txt")) = some e := by
  intro l
  induction l with
  | nil => intro out img h; simp at h
  | cons x xs ih =>
    intro out img hmem hsup
    rcases List.mem_cons.mp hmem with h | h
    · subst h
      obtain ⟨e, he⟩ := touch_self_present out img hsup
      rw [List.foldl_cons]
      exact ⟨e, foldl_touch_find_mono xs _ _ e he⟩
    · rw [List.foldl_cons]
      exact ih _ img h hsup

theorem touch_nodup (out : List (String × String)) (x : String)
    (hN : (out.map Prod.fst).Nodup) :
    ((Inference.touch_missing_label out x).map Prod.fst).Nodup := by
  unfold Inference.touch_missing_label
  by_cases hsup : Inference.IMG_FORMATS.contains (strToLower (py_suffix x)) = true
  · rw [if_pos hsup]
    by_cases hpres :
        (out.find? (fun p => decide (p.1 = py_stem x ++ ".txt"))).isSome = true
    · rw [if_pos hpres]; exact hN
    · rw [if_neg hpres]
      have hnone : out.find? (fun p => decide (p.1 = py_stem x ++ ".txt")) = none :=
        Option.not_isSome_iff_eq_none.mp (by simpa using hpres)
      rw [List.map_append]
      simp only [List.map_cons, List.map_nil]
      rw [List.nodup_append]
      refine ⟨hN, List.nodup_singleton _, ?_⟩
      intro a ha hb
      rw [List.mem_singleton] at hb
      obtain ⟨p, hp, hpk⟩ := List.mem_map.mp ha
      rw [List.find?_eq_none] at hnone
      exact absurd (by simp [hpk.trans hb]) (hnone p hp)
  · rw [if_neg hsup]; exact hN

theorem foldl_touch_nodup :
    ∀ (l : List String) (out : List (String × String)),
      (out.map Prod.fst).Nodup →
      ((l.foldl Inference.touch_missing_label out).map Prod.fst).Nodup := by
  intro l
  induction l with
  | nil => intro out h; exact h
  | cons x xs ih =>
    intro out h
    rw [List.foldl_cons]
    exact ih _ (touch_nodup out x h)

theorem move_labels_nodup (predicted : List (String × String)) :
    ∀ (out : List (String × String)), (out.map Prod.fst).Nodup →
      ((Inference.move_predicted_labels predicted out).map Prod.fst).Nodup := by
  induction predicted with
  | nil => intro out h; exact h
  | cons f fs ih =>
    intro out h
    have hstep : Inference.move_predicted_labels (f :: fs) out
        = Inference.move_predicted_labels fs
            (if py_suffix f.1 = ".txt" then dict_set out f.1 f.2 else out) := by
      unfold Inference.move_predicted_labels
      rw [List.foldl_cons]
    rw [hstep]
    apply ih
    by_cases hs : py_suffix f.1 = ".txt"
    · rw [if_pos hs]
      exact dict_set_nodup_keys out f.1 f.2 h
    · rw [if_neg hs]; exact h

theorem move_labels_find_none (k : String) :
    ∀ (predicted : List (String × String)), (∀ f ∈ predicted, f.1 ≠ k) →
      ∀ (out : List (String × String)),
        out.find? (fun p => decide (p.1 = k)) = none →
        (Inference.move_predicted_labels predicted out).find?
            (fun p => decide (p.1 = k)) = none := by
  intro predicted
  induction predicted with
  | nil => intro _ out h; exact h
  | cons f fs ih =>
    intro hk out h
    have hstep : Inference.move_predicted_labels (f :: fs) out
        = Inference.move_predicted_labels fs
            (if py_suffix f.1 = ".txt" then dict_set out f.1 f.2 else out) := by
      unfold Inference.move_predicted_labels
      rw [List.foldl_cons]
    rw [hstep]
    apply ih (fun q hq => hk q (List.mem_cons_of_mem _ hq))
    by_cases hs : py_suffix f.1 = ".txt"
    · rw [if_pos hs,
        find_dict_set_other out f.1 k f.2
          (fun hc => hk f (List.mem_cons_self _ _) hc.symm)]
      exact h
    · rw [if_neg hs]; exact h

theorem touch_content_inv (out : List (String × String)) (x k : String)
    (hinv : out.find? (fun p => decide (p.1 = k)) = none ∨
      out.find? (fun p => decide (p.1 = k)) = some (k, "")) :
    (Inference.touch_missing_label out x).find? (fun p => decide (p.1 = k)) = none ∨
    (Inference.touch_missing_label out x).find? (fun p => decide (p.1 = k))
      = some (k, "") := by
  unfold Inference.touch_missing_label
  by_cases hsup : Inference.IMG_FORMATS.contains (strToLower (py_suffix x)) = true
  · rw [if_pos hsup]
    by_cases hpres :
        (out.find? (fun p => decide (p.1 = py_stem x ++ ".txt"))).isSome = true
    · rw [if_pos hpres]; exact hinv
    · rw [if_neg hpres]
      rcases hinv with h | h
      · by_cases hkx : py_stem x ++ ".txt" = k
        · right
          rw [find_append_none _ _ _ h,
            List.find?_cons_of_pos _ (by simp [hkx]), hkx]
        · left
          rw [find_append_none _ _ _ h,
            List.find?_cons_of_neg _ (by simp [hkx])]
          rfl
      · right
        exact find_append_some _ _ _ _ h
  · rw [if_neg hsup]; exact hinv

theorem foldl_touch_content (k : String) :
    ∀ (l : List String) (out : List (String × String)),
      (out.find? (fun p => decide (p.1 = k)) = none ∨
        out.find? (fun p => decide (p.1 = k)) = some (k, "")) →
      ((l.foldl Inference.touch_missing_label out).find?
          (fun p => decide (p.1 = k)) = none ∨
        (l.foldl Inference.touch_missing_label out).find?
          (fun p => decide (p.1 = k)) = some (k, "")) := by
  intro l
  induction l with
  | nil => intro out h; exact h
  | cons x xs ih =>
    intro out h
    rw [List.foldl_cons]
    exact ih _ (touch_content_inv out x k h)

theorem count_eq_one_of_nodup_mem {α : Type} [DecidableEq α] (l : List α) (a : α)
    (hN : l.Nodup) (hmem : a ∈ l) : l.count a = 1 := by
  have h1 : l.count a ≤ 1 := List.nodup_iff_count_le_one.mp hN a
  have h2 : 0 < l.count a := List.count_pos_iff.mpr hmem
  omega

/-- Claim C2: after `process_batch` returns, every image file in the input
directory with a supported extension has exactly one label file `stem.txt`
in the output directory; an image for which the detector produced no label
file gets an empty label file, so zero detections still yield an existing,
empty label file. -/
theorem C2_label_file_per_image :
    ∀ (predicted : List (String × String)) (input_dir : List String)
      (img : String),
      img ∈ input_dir →
      Inference.IMG_FORMATS.contains (strToLower (py_suffix img)) = true →
      (((Inference.process_batch predicted input_dir []).map Prod.fst).count
          (py_stem img ++ ".txt") = 1) ∧
      ((∀ f ∈ predicted, f.1 ≠ py_stem img ++ ".txt") →
        (Inference.process_batch predicted input_dir []).find?
            (fun p => decide (p.1 = py_stem img ++ ".txt"))
          = some (py_stem img ++ ".txt", "")) := by
  intro predicted input_dir img hmem hsup
  have hpb : Inference.process_batch predicted input_dir []
      = input_dir.foldl Inference.touch_missing_label
          (Inference.move_predicted_labels predicted []) := rfl
  have hmovedN : ((Inference.move_predicted_labels predicted []).map
      Prod.fst).Nodup := move_labels_nodup predicted [] (by simp)
  have hresN : ((Inference.process_batch predicted input_dir []).map
      Prod.fst).Nodup := by
    rw [hpb]
    exact foldl_touch_nodup input_dir _ hmovedN
  obtain ⟨e, he⟩ :
      ∃ e, (Inference.process_batch predicted input_dir []).find?
        (fun p => decide (p.1 = py_stem img ++ ".txt")) = some e := by
    rw [hpb]
    exact foldl_touch_present input_dir _ img hmem hsup
  have hemem : e ∈ Inference.process_batch predicted input_dir [] :=
    List.mem_of_find?_eq_some he
  have hek : e.1 = py_stem img ++ ".txt" := by simpa using List.find?_some he
  constructor
  · apply count_eq_one_of_nodup_mem _ _ hresN
    rw [← hek]
    exact List.mem_map_of_mem Prod.fst hemem
  · intro hnp
    have hmoved_none : (Inference.move_predicted_labels predicted []).find?
        (fun p => decide (p.1 = py_stem img ++ ".txt")) = none :=
      move_labels_find_none _ predicted hnp [] rfl
    have hinv := foldl_touch_content (py_stem img ++ ".txt") input_dir
      (Inference.move_predicted_labels predicted []) (Or.inl hmoved_none)
    rw [← hpb] at hinv
    rcases hinv with h | h
    · rw [h] at he
      cases he
    · exact h

/-- Witness for C2: one detected image, one undetected image, one
non-image; the undetected image gets exactly one empty label file. -/
theorem C2_label_file_per_image_witness :
    (((Inference.process_batch [("a.txt", "0 0.5 0.5 0.1 0.1")]
        ["a.jpg", "b.PNG", "c.bin"] []).map Prod.fst).count
          (py_stem "b.PNG" ++ ".txt") = 1) ∧
    (Inference.process_batch [("a.txt", "0 0.5 0.5 0.1 0.1")]
        ["a.jpg", "b.PNG", "c.bin"] []).find?
          (fun p => decide (p.1 = py_stem "b.PNG" ++ ".txt"))
      = some (py_stem "b.PNG" ++ ".txt", "") := by
  have h := C2_label_file_per_image [("a.txt", "0 0.5 0.5 0.1 0.1")]
    ["a.jpg", "b.PNG", "c.bin"] "b.PNG" (by decide) (by decide)
  exact ⟨h.1, h.2 (by decide)⟩
